import Mathlib

/-!
Verification development for the SpendWise data pipeline.

The embedded program is a personal-budget tool whose core consists of
a normalizer (parse_data), a period aggregator (category totals and a
descending sort over them), a rule-based tip generator
(generate_contextual_tip) and a linear-regression forecast engine
(show_predict_page's data preparation, fit and prediction steps).

Modelling conventions:
- pandas DataFrame rows become lists of structures;
- float amounts become exact rationals (Rat);
- pd.to_datetime / pd.to_numeric with errors="coerce" are modelled by
  Option-valued raw fields (none stands for NaT / NaN);
- groupby sorts its keys ascending, which we model by an insertion sort
  over deduplicated keys;
- DataFrame.sort_values / Series.sort_values with the default
  kind="quicksort" only guarantees that the output is a permutation of
  the input ordered by the sort column; the relative order of ties is
  not specified. We model the guarantee as the relation
  IsSortValuesResult, and additionally provide the concrete stable
  realisation sortSpendingDesc.
-/

namespace SpendWise

/-- Calendar date as carried by a parsed row (pandas Timestamp fields
that the program reads: dt.year, dt.month, day). -/
structure SWDate where
  year : Int
  month : Nat
  day : Nat
deriving DecidableEq, Repr

/-- Utility get_week_of_month: (date.day - 1) // 7 + 1. -/
def get_week_of_month (d : SWDate) : Nat := (d.day - 1) / 7 + 1

/-- A raw CSV row after the two coercions of parse_data: rawDate is the
result of pd.to_datetime(. , errors="coerce") (none = NaT), rawAmount the
result of pd.to_numeric(. , errors="coerce") (none = NaN). -/
structure RawRow where
  rawDate : Option SWDate
  rawAmount : Option Rat
  category : String
deriving DecidableEq, Repr

/-- A normalized transaction (one retained row of df_spent). The derived
columns Year, Month, MonthName, WeekOfMonth are pure functions of date
and are recovered by the functions below rather than stored. -/
structure Transaction where
  date : SWDate
  amount : Rat
  category : String
deriving DecidableEq, Repr

/-- Month number to full month name, as produced by strftime with the
format directive for the full month name. -/
def monthNameOf : Nat → String
  | 1 => "January"
  | 2 => "February"
  | 3 => "March"
  | 4 => "April"
  | 5 => "May"
  | 6 => "June"
  | 7 => "July"
  | 8 => "August"
  | 9 => "September"
  | 10 => "October"
  | 11 => "November"
  | 12 => "December"
  | _ => ""

/-- One row survives df.dropna(subset=[Date, Amount]) exactly when both
coercions succeeded; the surviving row carries the parsed values. -/
def rowToTx (r : RawRow) : Option Transaction :=
  match r.rawDate, r.rawAmount with
  | some d, some a => some ⟨d, a, r.category⟩
  | _, _ => none

/-- The dropna step of parse_data over the whole table. -/
def dropnaRows (rows : List RawRow) : List Transaction :=
  rows.filterMap rowToTx

/-- parse_data: reject non-CSV uploads (the error branch returning None),
otherwise coerce, drop unparsable rows, keep rows with Amount > 0 and then
drop the reserved categories Savings and Income, in the order of the code. -/
def parse_data (file_type : String) (rows : List RawRow) :
    Option (List Transaction) :=
  if file_type = "csv" then
    some (((dropnaRows rows).filter (fun t => 0 < t.amount)).filter
      (fun t => ¬ (t.category = "Savings" ∨ t.category = "Income")))
  else
    none

/-- Total spending of a scope: df_filtered[Amount].sum(). -/
def totalSpent (l : List Transaction) : Rat :=
  (l.map Transaction.amount).sum

/-- Lexicographic code-point comparison of character lists; this is the
string order pandas uses when groupby sorts its keys. -/
def charsLe : List Char → List Char → Bool
  | [], _ => true
  | _ :: _, [] => false
  | a :: as, b :: bs =>
    if a < b then true else if b < a then false else charsLe as bs

/-- Ascending lexicographic order on category names. -/
def catLe (a b : String) : Prop := charsLe a.data b.data = true

instance : DecidableRel catLe := fun a b =>
  inferInstanceAs (Decidable (charsLe a.data b.data = true))

/-- The distinct categories of a scope in ascending name order, the key
order produced by groupby(Category). -/
def categoriesSorted (l : List Transaction) : List String :=
  List.insertionSort catLe (l.map Transaction.category).dedup

/-- Summed amount of one category bucket. -/
def categoryTotal (l : List Transaction) (c : String) : Rat :=
  ((l.filter (fun t => t.category = c)).map Transaction.amount).sum

/-- groupby(Category)[Amount].sum(): one (category, total) pair per
distinct category, keys in ascending order. -/
def categoryTotals (l : List Transaction) : List (String × Rat) :=
  (categoriesSorted l).map (fun c => (c, categoryTotal l c))

/-- Descending-by-amount comparison used by sort_values(ascending=False)
on the summed column. -/
def amountGe (a b : String × Rat) : Prop := b.2 ≤ a.2

instance : DecidableRel amountGe := fun a b =>
  inferInstanceAs (Decidable (b.2 ≤ a.2))

instance : IsTotal (String × Rat) amountGe :=
  ⟨fun a b => le_total b.2 a.2⟩

instance : IsTrans (String × Rat) amountGe :=
  ⟨fun _ _ _ hab hbc => le_trans hbc hab⟩

/-- Documented guarantee of sort_values(by=Amount, ascending=False) with
the default kind="quicksort": the output is a permutation of the input
that is ordered by descending amount. The relative order of exact ties is
not specified by this contract. -/
def IsSortValuesResult (input output : List (String × Rat)) : Prop :=
  input.Perm output ∧ output.Sorted amountGe

/-- A concrete realisation of the sort contract (stable, hence it keeps
the ascending-name groupby order among equal totals). -/
def sortSpendingDesc (xs : List (String × Rat)) : List (String × Rat) :=
  List.insertionSort amountGe xs

/-- Ordering demanded by the specification for category summaries:
totalAmount descending, ties broken by category name ascending. -/
def specSummaryLe (a b : String × Rat) : Prop :=
  b.2 < a.2 ∨ (a.2 = b.2 ∧ catLe a.1 b.1)

instance : DecidableRel specSummaryLe := fun a b =>
  inferInstanceAs (Decidable (b.2 < a.2 ∨ (a.2 = b.2 ∧ catLe a.1 b.1)))

/-- Modelled from the spec: the category summary ordering mandated by the
specification (amount descending, name-ascending tie-break), to be
compared with what the code's sort contract actually guarantees. -/
def specCategorySummaries (l : List Transaction) : List (String × Rat) :=
  List.insertionSort specSummaryLe (categoryTotals l)

/-- The fixed category-to-advice table of generate_contextual_tip. -/
def tips_mapping : List (String × String) :=
  [("Groceries", "Try meal planning and buying in bulk."),
   ("Restaurants", "Consider cooking at home 3-4 times a week."),
   ("Transport", "Use public transportation or carpool."),
   ("Shopping", "Apply the 30-day rule before purchases."),
   ("Entertainment", "Seek free or low-cost entertainment."),
   ("Utilities", "Be mindful of energy use and unplug devices."),
   ("Rent", "Reduce flexible spending to offset rent costs.")]

/-- The generic fallback advice string. -/
def generic_tip : String := "Review recurring small expenses—they add up!"

/-- Python str.join with separator " and ". -/
def joinAnd : List String → String
  | [] => ""
  | [c] => c
  | c :: rest => c ++ " and " ++ joinAnd rest

/-- generate_contextual_tip: empty-scope message, empty-buckets message,
otherwise name the top two category buckets and append the mapped tip of
the top one (generic fallback when unmapped). -/
def generate_contextual_tip (l : List Transaction) : String :=
  if l = [] then "No spending data available for this period."
  else
    let category_spending := sortSpendingDesc (categoryTotals l)
    if category_spending = [] then
      "No categorized spending found. Start categorizing your transactions!"
    else
      let top_categories := (category_spending.take 2).map Prod.fst
      let tip := "Focus on reducing spending in: **" ++
        joinAnd top_categories ++ "**. "
      match top_categories with
      | [] => tip
      | c :: _ => tip ++ ((tips_mapping.lookup c).getD generic_tip)

/-- Monthly date filter of get_date_filters: Year equals the selection and
MonthName equals the selected month name. -/
def filterMonthly (l : List Transaction) (y : Int) (mn : String) :
    List Transaction :=
  l.filter (fun t => t.date.year = y ∧ monthNameOf t.date.month = mn)

/-- Yearly date filter of get_date_filters. -/
def filterYearly (l : List Transaction) (y : Int) : List Transaction :=
  l.filter (fun t => t.date.year = y)

/-- The groupby key of the forecast preparation: (Year, Month). -/
def monthKey (t : Transaction) : Int × Nat := (t.date.year, t.date.month)

/-- Ascending order on (Year, Month) keys, the groupby key order. -/
def keyLe (a b : Int × Nat) : Prop :=
  a.1 < b.1 ∨ (a.1 = b.1 ∧ a.2 ≤ b.2)

instance : DecidableRel keyLe := fun a b =>
  inferInstanceAs (Decidable (a.1 < b.1 ∨ (a.1 = b.1 ∧ a.2 ≤ b.2)))

instance : IsTotal (Int × Nat) keyLe := by
  constructor
  intro a b
  rcases lt_trichotomy a.1 b.1 with h | h | h
  · exact Or.inl (Or.inl h)
  · rcases Nat.le_total a.2 b.2 with h2 | h2
    · exact Or.inl (Or.inr ⟨h, h2⟩)
    · exact Or.inr (Or.inr ⟨h.symm, h2⟩)
  · exact Or.inr (Or.inl h)

instance : IsTrans (Int × Nat) keyLe := by
  constructor
  intro a b c hab hbc
  rcases hab with h | ⟨he, hm⟩
  · rcases hbc with h2 | ⟨he2, _⟩
    · exact Or.inl (lt_trans h h2)
    · exact Or.inl (he2 ▸ h)
  · rcases hbc with h2 | ⟨he2, hm2⟩
    · exact Or.inl (he ▸ h2)
    · exact Or.inr ⟨he.trans he2, le_trans hm hm2⟩

/-- The distinct (Year, Month) keys of the history in ascending key
order, as produced by groupby([Year, Month]). -/
def monthKeys (l : List Transaction) : List (Int × Nat) :=
  List.insertionSort keyLe (l.map monthKey).dedup

/-- Summed amount of one month bucket. -/
def monthTotal (l : List Transaction) (k : Int × Nat) : Rat :=
  ((l.filter (fun t => monthKey t = k)).map Transaction.amount).sum

/-- df_monthly: groupby([Year, Month])[Amount].sum(), one row per
distinct month, keys ascending. -/
def monthlyTotals (l : List Transaction) : List ((Int × Nat) × Rat) :=
  (monthKeys l).map (fun k => (k, monthTotal l k))

/-- df_monthly[Year].min(): the smallest year among the grouped rows. -/
def minYear (l : List Transaction) : Int :=
  (((monthlyTotals l).map (fun p => p.1.1)).min?).getD 0

/-- MonthNum assignment: (Year - minYear) * 12 + Month. -/
def monthNumOf (minY : Int) (k : Int × Nat) : Int :=
  (k.1 - minY) * 12 + (k.2 : Int)

/-- The regression points (MonthNum, monthly total) fed to the model. -/
def dataPoints (l : List Transaction) : List (Rat × Rat) :=
  (monthlyTotals l).map
    (fun p => ((monthNumOf (minYear l) p.1 : Rat), p.2))

/-- Ordinary-least-squares slope over (x, y) pairs; this closed form is
what LinearRegression().fit computes for a single feature. -/
def olsSlope (pts : List (Rat × Rat)) : Rat :=
  let n : Rat := pts.length
  let sx := (pts.map Prod.fst).sum
  let sy := (pts.map Prod.snd).sum
  let sxy := (pts.map (fun p => p.1 * p.2)).sum
  let sxx := (pts.map (fun p => p.1 * p.1)).sum
  (n * sxy - sx * sy) / (n * sxx - sx * sx)

/-- Ordinary-least-squares intercept: mean y minus slope times mean x. -/
def olsIntercept (pts : List (Rat × Rat)) : Rat :=
  let n : Rat := pts.length
  ((pts.map Prod.snd).sum - olsSlope pts * (pts.map Prod.fst).sum) / n

/-- df_monthly[MonthNum].max(): the last observed month index. -/
def lastMonthNum (l : List Transaction) : Int :=
  (((monthlyTotals l).map
    (fun p => monthNumOf (minYear l) p.1)).max?).getD 0

/-- Per-month predicted savings: max(salary - x, 0) when a positive
salary was declared, otherwise the flat 20 percent of spending. -/
def predictedSavingsOf (salary x : Rat) : Rat :=
  if 0 < salary then max (salary - x) 0 else x * 0.2

/-- The warning text of the insufficient-data branch. -/
def insufficient_msg : String :=
  "Not enough data for linear regression forecast. Need at least 2 months of data."

/-- Output of a successful forecast: the 12 future month indices, their
predicted spending and savings, and the yearly sums. -/
structure ForecastResult where
  monthNums : List Int
  spending : List Rat
  savings : List Rat
  yearlySpending : Rat
  yearlySavings : Rat
deriving DecidableEq, Repr

/-- The forecast pipeline of show_predict_page: group by month, index by
MonthNum, bail out below 2 monthly points, fit OLS and predict the 12
month indices after the last observed one. -/
def forecast (salary : Rat) (l : List Transaction) :
    Except String ForecastResult :=
  if (monthlyTotals l).length < 2 then .error insufficient_msg
  else
    let a := olsSlope (dataPoints l)
    let b := olsIntercept (dataPoints l)
    let future := (List.range 12).map (fun k : Nat => lastMonthNum l + 1 + (k : Int))
    let preds := future.map (fun i : Int => a * (i : Rat) + b)
    let savings := preds.map (predictedSavingsOf salary)
    .ok ⟨future, preds, savings, preds.sum, savings.sum⟩

/-- Number of distinct (year, month) pairs in a transaction set. -/
def numDistinctMonths (l : List Transaction) : Nat :=
  (l.map monthKey).dedup.length

instance (input output : List (String × Rat)) :
    Decidable (IsSortValuesResult input output) := by
  unfold IsSortValuesResult
  infer_instance

/-- Concrete history with two flat months (January and February 2024,
100 spent in each). -/
def exFlat : List Transaction :=
  [⟨⟨2024, 1, 5⟩, 100, "Groceries"⟩, ⟨⟨2024, 2, 7⟩, 100, "Rent"⟩]

/-- Concrete history with a steeply declining spend (100 in January 2024,
10 in February 2024). -/
def exDecline : List Transaction :=
  [⟨⟨2024, 1, 5⟩, 100, "Groceries"⟩, ⟨⟨2024, 2, 5⟩, 10, "Groceries"⟩]

/-- Concrete one-month history starting in March 2024. -/
def exMarch : List Transaction := [⟨⟨2024, 3, 20⟩, 10, "Groceries"⟩]

/-! Helper lemmas about the aggregation. -/

theorem categoryTotal_nil (c : String) : categoryTotal [] c = 0 := rfl

theorem categoryTotal_cons (t : Transaction) (l : List Transaction)
    (c : String) :
    categoryTotal (t :: l) c =
      (if t.category = c then t.amount else 0) + categoryTotal l c := by
  unfold categoryTotal
  by_cases h : t.category = c <;> simp [List.filter_cons, h]

theorem sum_map_add_rat {α : Type} (l : List α) (f g : α → Rat) :
    (l.map (fun x => f x + g x)).sum = (l.map f).sum + (l.map g).sum := by
  induction l with
  | nil => simp
  | cons a l ih => simp only [List.map_cons, List.sum_cons, ih]; ring

theorem sum_map_single (cats : List String) (hnd : cats.Nodup)
    (c0 : String) (hc : c0 ∈ cats) (a : Rat) :
    (cats.map (fun c => if c0 = c then a else 0)).sum = a := by
  induction cats with
  | nil => cases hc
  | cons d ds ih =>
    rcases List.mem_cons.mp hc with h | h
    · subst h
      have hz : (ds.map (fun c => if c0 = c then a else 0)).sum = 0 := by
        apply List.sum_eq_zero
        intro x hx
        obtain ⟨c, hcds, rfl⟩ := List.mem_map.mp hx
        rw [if_neg]
        intro he
        exact (List.nodup_cons.mp hnd).1 (he ▸ hcds)
      simp [hz]
    · have hne : c0 ≠ d := by
        rintro rfl
        exact (List.nodup_cons.mp hnd).1 h
      simp only [List.map_cons, List.sum_cons, if_neg hne, zero_add]
      exact ih (List.nodup_cons.mp hnd).2 h

theorem map_categoryTotal_sum (cats : List String) (hnd : cats.Nodup) :
    ∀ l : List Transaction, (∀ t ∈ l, t.category ∈ cats) →
      (cats.map (categoryTotal l)).sum = totalSpent l := by
  intro l
  induction l with
  | nil =>
    intro _
    have hz : (cats.map (categoryTotal [])).sum = 0 := by
      apply List.sum_eq_zero
      intro x hx
      obtain ⟨c, _, rfl⟩ := List.mem_map.mp hx
      exact categoryTotal_nil c
    rw [hz]
    rfl
  | cons t l ih =>
    intro hcov
    have h1 : cats.map (categoryTotal (t :: l)) =
        cats.map (fun c =>
          (if t.category = c then t.amount else 0) + categoryTotal l c) := by
      apply List.map_congr_left
      intro c _
      exact categoryTotal_cons t l c
    rw [h1, sum_map_add_rat,
      sum_map_single cats hnd t.category (hcov t (List.mem_cons_self t l))
        t.amount,
      ih (fun u hu => hcov u (List.mem_cons_of_mem t hu))]
    show t.amount + totalSpent l = totalSpent (t :: l)
    unfold totalSpent
    simp

theorem nodup_categoriesSorted (l : List Transaction) :
    (categoriesSorted l).Nodup :=
  ((List.perm_insertionSort _ _).nodup_iff).mpr (List.nodup_dedup _)

theorem mem_categoriesSorted {l : List Transaction} {t : Transaction}
    (ht : t ∈ l) : t.category ∈ categoriesSorted l := by
  unfold categoriesSorted
  rw [List.mem_insertionSort, List.mem_dedup]
  exact List.mem_map_of_mem Transaction.category ht

theorem map_fst_categoryTotals (l : List Transaction) :
    (categoryTotals l).map Prod.fst = categoriesSorted l := by
  unfold categoryTotals
  rw [List.map_map]
  exact List.map_id _

theorem sum_snd_categoryTotals (l : List Transaction) :
    ((categoryTotals l).map Prod.snd).sum = totalSpent l := by
  unfold categoryTotals
  rw [List.map_map]
  exact map_categoryTotal_sum (categoriesSorted l) (nodup_categoriesSorted l)
    l (fun t ht => mem_categoriesSorted ht)

/-- C7: the category buckets of a scope partition the scoped spending:
for any output admitted by the sort contract, the bucket totals sum to
totalSpent of the scope. -/
theorem category_partition_totalSpent (l : List Transaction)
    (out : List (String × Rat))
    (h : IsSortValuesResult (categoryTotals l) out) :
    (out.map Prod.snd).sum = totalSpent l := by
  have hperm : ((categoryTotals l).map Prod.snd).Perm (out.map Prod.snd) :=
    h.1.map Prod.snd
  rw [← hperm.sum_eq]
  exact sum_snd_categoryTotals l

/-- Witness: the partition property evaluated on a concrete scope. -/
theorem category_partition_totalSpent_witness :
    (([("Groceries", (50 : Rat)), ("Restaurants", 30)]).map Prod.snd).sum =
      totalSpent [⟨⟨2024, 1, 5⟩, 50, "Groceries"⟩,
        ⟨⟨2024, 1, 20⟩, 30, "Restaurants"⟩] :=
  category_partition_totalSpent
    [⟨⟨2024, 1, 5⟩, 50, "Groceries"⟩, ⟨⟨2024, 1, 20⟩, 30, "Restaurants"⟩]
    [("Groceries", (50 : Rat)), ("Restaurants", 30)] (by
      have hc : categoriesSorted [⟨⟨2024, 1, 5⟩, 50, "Groceries"⟩,
          ⟨⟨2024, 1, 20⟩, 30, "Restaurants"⟩] =
          ["Groceries", "Restaurants"] := by decide
      have hct : categoryTotals [⟨⟨2024, 1, 5⟩, 50, "Groceries"⟩,
          ⟨⟨2024, 1, 20⟩, 30, "Restaurants"⟩] =
          [("Groceries", (50 : Rat)), ("Restaurants", 30)] := by
        rw [categoryTotals, hc]
        simp only [List.map_cons, List.map_nil]
        norm_num +decide [categoryTotal, List.filter_cons, List.filter_nil]
      refine ⟨?_, ?_⟩
      · rw [hct]
      · decide)

/-! Helper lemmas for the ordering of category summaries. -/

/-- Strictly-descending comparison on summed amounts. -/
def sndGtStrict (a b : String × Rat) : Prop := b.2 < a.2

instance : DecidableRel sndGtStrict := fun a b =>
  inferInstanceAs (Decidable (b.2 < a.2))

instance : IsAntisymm (String × Rat) sndGtStrict :=
  ⟨fun _ _ h1 h2 => absurd (lt_trans h1 h2) (lt_irrefl _)⟩

theorem sorted_strict_of_sorted_ge (xs : List (String × Rat))
    (hs : xs.Sorted amountGe) (hn : (xs.map Prod.snd).Nodup) :
    xs.Sorted sndGtStrict := by
  have hp : xs.Pairwise (fun a b => a.2 ≠ b.2) := List.pairwise_map.mp hn
  exact (hs.and hp).imp (fun h => lt_of_le_of_ne h.1 (Ne.symm h.2))

/-- C6 counterexample: on two categories with exactly equal totals, the
sort contract of sort_values(kind=quicksort) admits an output that is not
the amount-descending name-ascending ordering demanded by the claim; the
tie-break (and with it the claimed determinism of top-N selection) is not
guaranteed by the code. -/
theorem category_sort_tiebreak_cex :
    IsSortValuesResult
      (categoryTotals [⟨⟨2024, 1, 5⟩, 10, "B"⟩, ⟨⟨2024, 1, 6⟩, 10, "A"⟩])
      [("B", 10), ("A", 10)] ∧
    ([("B", (10 : Rat)), ("A", 10)] : List (String × Rat)) ≠
      specCategorySummaries
        [⟨⟨2024, 1, 5⟩, 10, "B"⟩, ⟨⟨2024, 1, 6⟩, 10, "A"⟩] := by
  have hc : categoriesSorted
      [⟨⟨2024, 1, 5⟩, 10, "B"⟩, ⟨⟨2024, 1, 6⟩, 10, "A"⟩] = ["A", "B"] := by
    decide
  have hct : categoryTotals
      [⟨⟨2024, 1, 5⟩, 10, "B"⟩, ⟨⟨2024, 1, 6⟩, 10, "A"⟩] =
      [("A", (10 : Rat)), ("B", 10)] := by
    rw [categoryTotals, hc]
    simp only [List.map_cons, List.map_nil]
    norm_num +decide [categoryTotal, List.filter_cons, List.filter_nil]
  refine ⟨⟨?_, by decide⟩, ?_⟩
  · rw [hct]
    decide
  · rw [specCategorySummaries, hct]
    decide

/-- C6 amended: every output admitted by the code's sort contract has one
entry per distinct category of the scope and is ordered by descending
total; when the totals are pairwise distinct that output is unique (so
re-aggregation is deterministic), but the relative order of exact ties is
left unspecified by the code. -/
theorem category_summaries_sorted (l : List Transaction)
    (out : List (String × Rat))
    (h : IsSortValuesResult (categoryTotals l) out) :
    ((out.map Prod.fst).Perm (categoriesSorted l) ∧
      out.Sorted amountGe) ∧
    ((out.map Prod.snd).Nodup →
      ∀ out2, IsSortValuesResult (categoryTotals l) out2 → out2 = out) := by
  refine ⟨⟨?_, h.2⟩, ?_⟩
  · have h2 := h.1.map Prod.fst
    rw [map_fst_categoryTotals] at h2
    exact h2.symm
  · intro hn out2 h2
    have hperm : out2.Perm out := h2.1.symm.trans h.1
    have hn2 : (out2.map Prod.snd).Nodup :=
      ((hperm.map Prod.snd).nodup_iff).mpr hn
    exact List.eq_of_perm_of_sorted hperm
      (sorted_strict_of_sorted_ge out2 h2.2 hn2)
      (sorted_strict_of_sorted_ge out h.2 hn)

/-- Witness: the amended ordering statement on a concrete scope with
distinct totals. -/
theorem category_summaries_sorted_witness :
    (([("Groceries", (50 : Rat)), ("Restaurants", 30)].map Prod.fst).Perm
        (categoriesSorted [⟨⟨2024, 1, 5⟩, 50, "Groceries"⟩,
          ⟨⟨2024, 1, 20⟩, 30, "Restaurants"⟩]) ∧
      List.Sorted amountGe [("Groceries", (50 : Rat)), ("Restaurants", 30)]) ∧
    (([("Groceries", (50 : Rat)), ("Restaurants", 30)].map Prod.snd).Nodup →
      ∀ out2, IsSortValuesResult
          (categoryTotals [⟨⟨2024, 1, 5⟩, 50, "Groceries"⟩,
            ⟨⟨2024, 1, 20⟩, 30, "Restaurants"⟩]) out2 →
        out2 = [("Groceries", (50 : Rat)), ("Restaurants", 30)]) :=
  category_summaries_sorted
    [⟨⟨2024, 1, 5⟩, 50, "Groceries"⟩, ⟨⟨2024, 1, 20⟩, 30, "Restaurants"⟩]
    [("Groceries", (50 : Rat)), ("Restaurants", 30)] (by
      have hc : categoriesSorted [⟨⟨2024, 1, 5⟩, 50, "Groceries"⟩,
          ⟨⟨2024, 1, 20⟩, 30, "Restaurants"⟩] =
          ["Groceries", "Restaurants"] := by decide
      have hct : categoryTotals [⟨⟨2024, 1, 5⟩, 50, "Groceries"⟩,
          ⟨⟨2024, 1, 20⟩, 30, "Restaurants"⟩] =
          [("Groceries", (50 : Rat)), ("Restaurants", 30)] := by
        rw [categoryTotals, hc]
        simp only [List.map_cons, List.map_nil]
        norm_num +decide [categoryTotal, List.filter_cons, List.filter_nil]
      refine ⟨?_, ?_⟩
      · rw [hct]
      · decide)

/-! Normalization invariant and per-row rejection. -/

/-- C1: every transaction retained by parse_data has positive amount and
a category outside the reserved set, and the scoped views obtained by the
date filters only ever contain such records. -/
theorem parse_invariant_spending_only (ft : String) (rows : List RawRow)
    (out : List Transaction) (h : parse_data ft rows = some out) :
    (∀ t ∈ out,
      0 < t.amount ∧ t.category ≠ "Savings" ∧ t.category ≠ "Income") ∧
    (∀ (y : Int) (mn : String), ∀ t ∈ filterMonthly out y mn,
      0 < t.amount ∧ t.category ≠ "Savings" ∧ t.category ≠ "Income") ∧
    (∀ y : Int, ∀ t ∈ filterYearly out y,
      0 < t.amount ∧ t.category ≠ "Savings" ∧ t.category ≠ "Income") := by
  have hbase : ∀ t ∈ out,
      0 < t.amount ∧ t.category ≠ "Savings" ∧ t.category ≠ "Income" := by
    intro t ht
    unfold parse_data at h
    by_cases hft : ft = "csv"
    · rw [if_pos hft] at h
      rw [← Option.some.inj h] at ht
      simp only [List.mem_filter, decide_eq_true_eq] at ht
      refine ⟨ht.1.2, ?_, ?_⟩
      · intro he
        exact ht.2 (Or.inl he)
      · intro he
        exact ht.2 (Or.inr he)
    · rw [if_neg hft] at h
      exact absurd h (by simp)
  exact ⟨hbase,
    fun _ _ t ht => hbase t (List.mem_filter.mp ht).1,
    fun _ t ht => hbase t (List.mem_filter.mp ht).1⟩

/-- Witness: the invariant on the retained set of a concrete upload in
which an Income row is excluded. -/
theorem parse_invariant_spending_only_witness :
    (∀ t ∈ [(⟨⟨2024, 1, 5⟩, 50, "Groceries"⟩ : Transaction),
        ⟨⟨2024, 1, 20⟩, 30, "Restaurants"⟩],
      0 < t.amount ∧ t.category ≠ "Savings" ∧ t.category ≠ "Income") ∧
    (∀ (y : Int) (mn : String),
      ∀ t ∈ filterMonthly [(⟨⟨2024, 1, 5⟩, 50, "Groceries"⟩ : Transaction),
          ⟨⟨2024, 1, 20⟩, 30, "Restaurants"⟩] y mn,
        0 < t.amount ∧ t.category ≠ "Savings" ∧ t.category ≠ "Income") ∧
    (∀ y : Int,
      ∀ t ∈ filterYearly [(⟨⟨2024, 1, 5⟩, 50, "Groceries"⟩ : Transaction),
          ⟨⟨2024, 1, 20⟩, 30, "Restaurants"⟩] y,
        0 < t.amount ∧ t.category ≠ "Savings" ∧ t.category ≠ "Income") :=
  parse_invariant_spending_only "csv"
    [⟨some ⟨2024, 1, 5⟩, some 50, "Groceries"⟩,
      ⟨some ⟨2024, 1, 20⟩, some 30, "Restaurants"⟩,
      ⟨some ⟨2024, 1, 10⟩, some (-20), "Income"⟩]
    [⟨⟨2024, 1, 5⟩, 50, "Groceries"⟩, ⟨⟨2024, 1, 20⟩, 30, "Restaurants"⟩]
    (by decide)

/-- Characterisation of one row surviving the dropna step. -/
theorem rowToTx_eq_some (r : RawRow) (tx : Transaction) :
    rowToTx r = some tx ↔
      r.rawDate = some tx.date ∧ r.rawAmount = some tx.amount ∧
        r.category = tx.category := by
  rcases r with ⟨rd, ra, rc⟩
  rcases tx with ⟨td, ta, tc⟩
  cases rd <;> cases ra <;>
    simp [rowToTx, Transaction.mk.injEq, and_assoc]

/-- C8: a row whose date or amount coercion fails is silently dropped by
dropna while every row with both parses succeeding is retained, the CSV
path never turns per-row failures into a failure outcome, and on the
concrete Scenario B input only the malformed row is lost. -/
theorem row_rejection_nonfatal :
    (∀ rows : List RawRow, ∃ out, parse_data "csv" rows = some out) ∧
    (∀ (rows : List RawRow) (tx : Transaction),
      tx ∈ dropnaRows rows ↔
        ∃ r ∈ rows, r.rawDate = some tx.date ∧
          r.rawAmount = some tx.amount ∧ r.category = tx.category) ∧
    parse_data "csv"
      [⟨some ⟨2024, 1, 5⟩, some 50, "Groceries"⟩,
        ⟨none, some 30, "Restaurants"⟩,
        ⟨some ⟨2024, 1, 20⟩, some 30, "Restaurants"⟩] =
      some [⟨⟨2024, 1, 5⟩, 50, "Groceries"⟩,
        ⟨⟨2024, 1, 20⟩, 30, "Restaurants"⟩] := by
  refine ⟨fun rows => ⟨_, by rw [parse_data, if_pos rfl]⟩, ?_, by decide⟩
  intro rows tx
  unfold dropnaRows
  rw [List.mem_filterMap]
  constructor
  · rintro ⟨r, hr, he⟩
    exact ⟨r, hr, (rowToTx_eq_some r tx).mp he⟩
  · rintro ⟨r, hr, he⟩
    exact ⟨r, hr, (rowToTx_eq_some r tx).mpr he⟩

/-- Witness: the dropna characterisation applied to a concrete row. -/
theorem row_rejection_nonfatal_witness :
    (⟨⟨2024, 1, 5⟩, 50, "Groceries"⟩ : Transaction) ∈
        dropnaRows [⟨some ⟨2024, 1, 5⟩, some 50, "Groceries"⟩] ↔
      ∃ r ∈ [(⟨some ⟨2024, 1, 5⟩, some 50, "Groceries"⟩ : RawRow)],
        r.rawDate = some (⟨2024, 1, 5⟩ : SWDate) ∧
          r.rawAmount = some 50 ∧ r.category = "Groceries" :=
  row_rejection_nonfatal.2.1 [⟨some ⟨2024, 1, 5⟩, some 50, "Groceries"⟩]
    ⟨⟨2024, 1, 5⟩, 50, "Groceries"⟩

/-! The tip generator. -/

/-- C10: with exactly one distinct category in scope the tip generator
hits neither empty branch and produces the message naming that category
alone, followed by its mapped tip (or the generic fallback). -/
theorem single_category_tip (l : List Transaction) (c : String)
    (h : (l.map Transaction.category).dedup = [c]) :
    generate_contextual_tip l =
      "Focus on reducing spending in: **" ++ c ++ "**. " ++
        ((tips_mapping.lookup c).getD generic_tip) := by
  have hne : l ≠ [] := by
    intro he
    rw [he] at h
    simp at h
  have hcs : categoriesSorted l = [c] := by
    unfold categoriesSorted
    rw [h]
    rfl
  have hct : categoryTotals l = [(c, categoryTotal l c)] := by
    unfold categoryTotals
    rw [hcs]
    rfl
  have hsd : sortSpendingDesc (categoryTotals l) = [(c, categoryTotal l c)] := by
    rw [hct]
    rfl
  simp [generate_contextual_tip, hsd, hne, joinAnd]

/-- Witness: the single-category tip on a concrete one-category scope. -/
theorem single_category_tip_witness :
    generate_contextual_tip exMarch =
      "Focus on reducing spending in: **" ++ "Groceries" ++ "**. " ++
        ((tips_mapping.lookup "Groceries").getD generic_tip) :=
  single_category_tip exMarch "Groceries" (by decide)

/-! The forecast engine. -/

theorem length_monthlyTotals (l : List Transaction) :
    (monthlyTotals l).length = numDistinctMonths l := by
  unfold monthlyTotals monthKeys numDistinctMonths
  rw [List.length_map, List.length_insertionSort]

/-- Unfolding of the successful branch of the forecast. -/
theorem forecast_ok (salary : Rat) (l : List Transaction)
    (h2 : 2 ≤ numDistinctMonths l) :
    forecast salary l = .ok
      ⟨(List.range 12).map (fun k : Nat => lastMonthNum l + 1 + (k : Int)),
       ((List.range 12).map (fun k : Nat => lastMonthNum l + 1 + (k : Int))).map
         (fun i : Int => olsSlope (dataPoints l) * (i : Rat) +
           olsIntercept (dataPoints l)),
       (((List.range 12).map (fun k : Nat => lastMonthNum l + 1 + (k : Int))).map
         (fun i : Int => olsSlope (dataPoints l) * (i : Rat) +
           olsIntercept (dataPoints l))).map (predictedSavingsOf salary),
       (((List.range 12).map (fun k : Nat => lastMonthNum l + 1 + (k : Int))).map
         (fun i : Int => olsSlope (dataPoints l) * (i : Rat) +
           olsIntercept (dataPoints l))).sum,
       ((((List.range 12).map (fun k : Nat => lastMonthNum l + 1 + (k : Int))).map
         (fun i : Int => olsSlope (dataPoints l) * (i : Rat) +
           olsIntercept (dataPoints l))).map
             (predictedSavingsOf salary)).sum⟩ := by
  unfold forecast
  rw [if_neg (by rw [length_monthlyTotals]; omega)]

/-- C3: the forecast produces predictions exactly when at least two
distinct (year, month) pairs exist, and otherwise reports the
insufficient-data warning instead of crashing. -/
theorem forecast_insufficient_iff (salary : Rat) (l : List Transaction) :
    ((∃ r, forecast salary l = .ok r) ↔ 2 ≤ numDistinctMonths l) ∧
    (numDistinctMonths l < 2 →
      forecast salary l = .error insufficient_msg) := by
  by_cases hc : numDistinctMonths l < 2
  · have he : forecast salary l = .error insufficient_msg := by
      unfold forecast
      rw [if_pos (by rw [length_monthlyTotals]; omega)]
    refine ⟨⟨?_, ?_⟩, fun _ => he⟩
    · rintro ⟨r, hr⟩
      rw [he] at hr
      exact absurd hr (by simp)
    · intro hge
      omega
  · refine ⟨⟨fun _ => by omega, fun _ => ⟨_, forecast_ok salary l (by omega)⟩⟩,
      fun hlt => absurd hlt hc⟩

/-- Witness: on a one-month history the forecast reports the
insufficient-data warning. -/
theorem forecast_insufficient_iff_witness :
    forecast 0 exMarch = .error insufficient_msg :=
  (forecast_insufficient_iff 0 exMarch).2 (by decide)

/-! Concrete evaluation of the forecast on the flat two-month history. -/

theorem exFlat_monthKeys : monthKeys exFlat = [(2024, 1), (2024, 2)] := by
  decide

theorem exFlat_monthlyTotals :
    monthlyTotals exFlat = [((2024, 1), (100 : Rat)), ((2024, 2), 100)] := by
  rw [monthlyTotals, exFlat_monthKeys]
  simp only [List.map_cons, List.map_nil]
  norm_num +decide [monthTotal, exFlat, monthKey, List.filter_cons,
    List.filter_nil]

theorem exFlat_minYear : minYear exFlat = 2024 := by
  rw [minYear, exFlat_monthlyTotals]
  decide

theorem exFlat_dataPoints : dataPoints exFlat = [(1, 100), (2, 100)] := by
  rw [dataPoints, exFlat_monthlyTotals, exFlat_minYear]
  norm_num [monthNumOf]

theorem exFlat_lastMonthNum : lastMonthNum exFlat = 2 := by
  rw [lastMonthNum, exFlat_monthlyTotals, exFlat_minYear]
  decide

theorem exFlat_ols :
    olsSlope (dataPoints exFlat) = 0 ∧
      olsIntercept (dataPoints exFlat) = 100 := by
  rw [exFlat_dataPoints]
  constructor
  · norm_num [olsSlope]
  · norm_num [olsIntercept, olsSlope]

theorem exFlat_forecast (salary : Rat) :
    forecast salary exFlat = .ok
      ⟨[3, 4, 5, 6, 7, 8, 9, 10, 11, 12, 13, 14],
       [100, 100, 100, 100, 100, 100, 100, 100, 100, 100, 100, 100],
       List.replicate 12 (predictedSavingsOf salary 100),
       1200,
       (List.replicate 12 (predictedSavingsOf salary 100)).sum⟩ := by
  rw [forecast_ok salary exFlat (by decide),
    show (List.range 12).map (fun k : Nat => lastMonthNum exFlat + 1 + (k : Int)) =
      [3, 4, 5, 6, 7, 8, 9, 10, 11, 12, 13, 14] from by
        rw [exFlat_lastMonthNum]; decide,
    exFlat_ols.1, exFlat_ols.2]
  norm_num [List.replicate]

/-- C4: every predicted month pairs its spending x with the savings value
max(salary - x, 0) when a positive salary is declared and 0.2 x otherwise;
in particular salary 3000 with spending 3500 saves 0 and no salary with
spending 1000 saves 200. -/
theorem predicted_savings_rule :
    (∀ (salary : Rat) (l : List Transaction) (r : ForecastResult),
      forecast salary l = .ok r →
      ∀ (i : Nat) (x : Rat), r.spending[i]? = some x →
        r.savings[i]? =
          some (if 0 < salary then max (salary - x) 0 else x * 0.2)) ∧
    predictedSavingsOf 3000 3500 = 0 ∧ predictedSavingsOf 0 1000 = 200 := by
  refine ⟨?_, ?_, ?_⟩
  · intro salary l r hr i x hx
    unfold forecast at hr
    by_cases hlen : (monthlyTotals l).length < 2
    · rw [if_pos hlen] at hr
      exact absurd hr (by simp)
    · rw [if_neg hlen] at hr
      have hrr := Except.ok.inj hr
      subst hrr
      simp only at hx
      simp only [List.getElem?_map, hx, Option.map_some]
      rfl
  · norm_num [predictedSavingsOf]
  · norm_num [predictedSavingsOf]

/-- Witness: the savings rule read off the forecast of the flat history
with salary 3000. -/
theorem predicted_savings_rule_witness :
    (⟨[3, 4, 5, 6, 7, 8, 9, 10, 11, 12, 13, 14],
      [100, 100, 100, 100, 100, 100, 100, 100, 100, 100, 100, 100],
      List.replicate 12 (2900 : Rat), 1200,
      (List.replicate 12 (2900 : Rat)).sum⟩ : ForecastResult).savings[0]? =
      some (if (0 : Rat) < 3000 then max (3000 - 100) 0
        else (100 * 0.2 : Rat)) :=
  predicted_savings_rule.1 3000 exFlat
    ⟨[3, 4, 5, 6, 7, 8, 9, 10, 11, 12, 13, 14],
      [100, 100, 100, 100, 100, 100, 100, 100, 100, 100, 100, 100],
      List.replicate 12 (2900 : Rat), 1200,
      (List.replicate 12 (2900 : Rat)).sum⟩
    (by
      have h := exFlat_forecast 3000
      rw [show predictedSavingsOf 3000 100 = 2900 from by
        norm_num [predictedSavingsOf]] at h
      exact h)
    0 100 (by decide)

/-! Concrete evaluation of the forecast on the declining history. -/

theorem exDecline_monthKeys :
    monthKeys exDecline = [(2024, 1), (2024, 2)] := by decide

theorem exDecline_monthlyTotals :
    monthlyTotals exDecline =
      [((2024, 1), (100 : Rat)), ((2024, 2), 10)] := by
  rw [monthlyTotals, exDecline_monthKeys]
  simp only [List.map_cons, List.map_nil]
  norm_num +decide [monthTotal, exDecline, monthKey, List.filter_cons,
    List.filter_nil]

theorem exDecline_minYear : minYear exDecline = 2024 := by
  rw [minYear, exDecline_monthlyTotals]
  decide

theorem exDecline_dataPoints :
    dataPoints exDecline = [(1, 100), (2, 10)] := by
  rw [dataPoints, exDecline_monthlyTotals, exDecline_minYear]
  norm_num [monthNumOf]

theorem exDecline_lastMonthNum : lastMonthNum exDecline = 2 := by
  rw [lastMonthNum, exDecline_monthlyTotals, exDecline_minYear]
  decide

theorem exDecline_ols :
    olsSlope (dataPoints exDecline) = -90 ∧
      olsIntercept (dataPoints exDecline) = 190 := by
  rw [exDecline_dataPoints]
  constructor
  · norm_num [olsSlope]
  · norm_num [olsIntercept, olsSlope]

theorem exDecline_forecast :
    forecast 0 exDecline = .ok
      ⟨[3, 4, 5, 6, 7, 8, 9, 10, 11, 12, 13, 14],
       [-80, -170, -260, -350, -440, -530, -620, -710, -800, -890, -980,
        -1070],
       [-16, -34, -52, -70, -88, -106, -124, -142, -160, -178, -196, -214],
       -6900, -1380⟩ := by
  rw [forecast_ok 0 exDecline (by decide),
    show (List.range 12).map
        (fun k : Nat => lastMonthNum exDecline + 1 + (k : Int)) =
      [3, 4, 5, 6, 7, 8, 9, 10, 11, 12, 13, 14] from by
        rw [exDecline_lastMonthNum]; decide,
    exDecline_ols.1, exDecline_ols.2]
  norm_num [predictedSavingsOf]

/-- C5: with at least two distinct monthly points the forecast succeeds
and emits exactly 12 predictions at the 12 indices after the last
observed one, each the unclamped value slope times index plus intercept;
on a steeply declining history a prediction is negative. -/
theorem forecast_predictions_shape :
    (∀ (salary : Rat) (l : List Transaction),
      2 ≤ numDistinctMonths l →
      ∃ r, forecast salary l = .ok r ∧
        r.spending.length = 12 ∧
        r.monthNums =
          (List.range 12).map (fun k : Nat => lastMonthNum l + 1 + (k : Int)) ∧
        ∀ k : Nat, k < 12 →
          r.spending[k]? =
            some (olsSlope (dataPoints l) *
                ((lastMonthNum l + 1 + (k : Int) : Int) : Rat) +
              olsIntercept (dataPoints l))) ∧
    (∃ (r : ForecastResult) (x : Rat),
      forecast 0 exDecline = .ok r ∧ r.spending[0]? = some x ∧ x < 0) := by
  constructor
  · intro salary l h2
    refine ⟨_, forecast_ok salary l h2, ?_, rfl, ?_⟩
    · simp only [List.length_map, List.length_range]
    · intro k hk
      rw [List.getElem?_map, List.getElem?_map, List.getElem?_range hk]
      rfl
  · exact ⟨_, -80, exDecline_forecast, by decide, by decide⟩

/-- Witness: the shape statement applied to the flat history. -/
theorem forecast_predictions_shape_witness :
    ∃ r, forecast 0 exFlat = .ok r ∧
      r.spending.length = 12 ∧
      r.monthNums =
        (List.range 12).map (fun k : Nat => lastMonthNum exFlat + 1 + (k : Int)) ∧
      ∀ k : Nat, k < 12 →
        r.spending[k]? =
          some (olsSlope (dataPoints exFlat) *
              ((lastMonthNum exFlat + 1 + (k : Int) : Int) : Rat) +
            olsIntercept (dataPoints exFlat)) :=
  forecast_predictions_shape.1 0 exFlat (by decide)

/-! Exact interpolation of the two-point least-squares fit. -/

theorem map_fst_monthlyTotals (l : List Transaction) :
    (monthlyTotals l).map Prod.fst = monthKeys l := by
  unfold monthlyTotals
  rw [List.map_map]
  exact List.map_id _

theorem nodup_monthKeys (l : List Transaction) : (monthKeys l).Nodup :=
  ((List.perm_insertionSort _ _).nodup_iff).mpr (List.nodup_dedup _)

theorem mem_monthKeys_exists {l : List Transaction} {k : Int × Nat}
    (hk : k ∈ monthKeys l) : ∃ t ∈ l, monthKey t = k := by
  unfold monthKeys at hk
  rw [List.mem_insertionSort, List.mem_dedup] at hk
  exact List.mem_map.mp hk

theorem monthNumOf_inj_of_valid (minY : Int) (k1 k2 : Int × Nat)
    (h1 : 1 ≤ k1.2 ∧ k1.2 ≤ 12) (h2 : 1 ≤ k2.2 ∧ k2.2 ≤ 12)
    (hne : k1 ≠ k2) : monthNumOf minY k1 ≠ monthNumOf minY k2 := by
  obtain ⟨y1, m1⟩ := k1
  obtain ⟨y2, m2⟩ := k2
  simp only [monthNumOf] at h1 h2 ⊢
  intro he
  apply hne
  have hy : y1 = y2 ∧ m1 = m2 := by
    constructor <;> omega
  rw [hy.1, hy.2]

theorem ols_two_point (x1 x2 y1 y2 : Rat) (hx : x1 ≠ x2) :
    olsSlope [(x1, y1), (x2, y2)] = (y2 - y1) / (x2 - x1) ∧
    olsIntercept [(x1, y1), (x2, y2)] =
      y1 - (y2 - y1) / (x2 - x1) * x1 := by
  have hne : x2 - x1 ≠ 0 := sub_ne_zero.mpr (Ne.symm hx)
  have hD : (2 : Rat) * (x1 * x1 + x2 * x2) - (x1 + x2) * (x1 + x2) ≠ 0 := by
    have h : (2 : Rat) * (x1 * x1 + x2 * x2) - (x1 + x2) * (x1 + x2) =
        (x2 - x1) ^ 2 := by ring
    rw [h]
    exact pow_ne_zero 2 hne
  have hslope : olsSlope [(x1, y1), (x2, y2)] = (y2 - y1) / (x2 - x1) := by
    unfold olsSlope
    simp only [List.map_cons, List.map_nil, List.sum_cons, List.sum_nil,
      List.length_cons, List.length_nil, add_zero]
    norm_num
    rw [div_eq_div_iff hD hne]
    ring
  refine ⟨hslope, ?_⟩
  unfold olsIntercept
  rw [hslope]
  simp only [List.map_cons, List.map_nil, List.sum_cons, List.sum_nil,
    List.length_cons, List.length_nil, add_zero]
  norm_num
  field_simp
  ring

/-- C9: with exactly two distinct monthly totals the fitted line passes
through both observed points, and every one of the 12 predictions equals
the exact linear extrapolation through those two points. -/
theorem two_point_fit_exact (l : List Transaction) (k1 k2 : Int × Nat)
    (t1 t2 : Rat)
    (hvm : ∀ t ∈ l, 1 ≤ t.date.month ∧ t.date.month ≤ 12)
    (hm : monthlyTotals l = [(k1, t1), (k2, t2)]) :
    olsSlope (dataPoints l) * ((monthNumOf (minYear l) k1 : Int) : Rat) +
        olsIntercept (dataPoints l) = t1 ∧
    olsSlope (dataPoints l) * ((monthNumOf (minYear l) k2 : Int) : Rat) +
        olsIntercept (dataPoints l) = t2 ∧
    (∀ (salary : Rat) (r : ForecastResult), forecast salary l = .ok r →
      ∀ k : Nat, k < 12 →
        r.spending[k]? = some (t1 +
          (((lastMonthNum l + 1 + (k : Int) : Int) : Rat) -
            ((monthNumOf (minYear l) k1 : Int) : Rat)) *
          ((t2 - t1) / (((monthNumOf (minYear l) k2 : Int) : Rat) -
            ((monthNumOf (minYear l) k1 : Int) : Rat))))) := by
  have hkeys : monthKeys l = [k1, k2] := by
    rw [← map_fst_monthlyTotals, hm]
    rfl
  have hne12 : k1 ≠ k2 := by
    have hnd := nodup_monthKeys l
    rw [hkeys] at hnd
    simpa using (List.nodup_cons.mp hnd).1
  have hb1 : 1 ≤ k1.2 ∧ k1.2 ≤ 12 := by
    obtain ⟨t, htl, hkt⟩ := mem_monthKeys_exists
      (show k1 ∈ monthKeys l by rw [hkeys]; simp)
    rw [← hkt]
    exact hvm t htl
  have hb2 : 1 ≤ k2.2 ∧ k2.2 ≤ 12 := by
    obtain ⟨t, htl, hkt⟩ := mem_monthKeys_exists
      (show k2 ∈ monthKeys l by rw [hkeys]; simp)
    rw [← hkt]
    exact hvm t htl
  have hxne : monthNumOf (minYear l) k1 ≠ monthNumOf (minYear l) k2 :=
    monthNumOf_inj_of_valid (minYear l) k1 k2 hb1 hb2 hne12
  have hxQ : ((monthNumOf (minYear l) k1 : Int) : Rat) ≠
      ((monthNumOf (minYear l) k2 : Int) : Rat) := by
    exact_mod_cast hxne
  have hdp : dataPoints l =
      [(((monthNumOf (minYear l) k1 : Int) : Rat), t1),
       (((monthNumOf (minYear l) k2 : Int) : Rat), t2)] := by
    rw [dataPoints, hm]
    rfl
  obtain ⟨ha, hb⟩ := ols_two_point
    ((monthNumOf (minYear l) k1 : Int) : Rat)
    ((monthNumOf (minYear l) k2 : Int) : Rat) t1 t2 hxQ
  have hsub : (((monthNumOf (minYear l) k2 : Int) : Rat) -
      ((monthNumOf (minYear l) k1 : Int) : Rat)) ≠ 0 :=
    sub_ne_zero.mpr (Ne.symm hxQ)
  refine ⟨?_, ?_, ?_⟩
  · rw [hdp, ha, hb]
    ring
  · rw [hdp, ha, hb]
    field_simp
    ring
  · intro salary r hr k hk
    unfold forecast at hr
    by_cases hlen : (monthlyTotals l).length < 2
    · rw [hm] at hlen
      simp at hlen
    · rw [if_neg hlen] at hr
      have hrr := Except.ok.inj hr
      subst hrr
      rw [List.getElem?_map, List.getElem?_map, List.getElem?_range hk]
      simp only [Option.map_some']
      rw [hdp, ha, hb]
      congr 1
      push_cast
      ring

/-- Witness: the exact two-point interpolation on the declining
history. -/
theorem two_point_fit_exact_witness :
    olsSlope (dataPoints exDecline) *
        ((monthNumOf (minYear exDecline) (2024, 1) : Int) : Rat) +
        olsIntercept (dataPoints exDecline) = 100 ∧
    olsSlope (dataPoints exDecline) *
        ((monthNumOf (minYear exDecline) (2024, 2) : Int) : Rat) +
        olsIntercept (dataPoints exDecline) = 10 ∧
    (∀ (salary : Rat) (r : ForecastResult),
      forecast salary exDecline = .ok r →
      ∀ k : Nat, k < 12 →
        r.spending[k]? = some (100 +
          (((lastMonthNum exDecline + 1 + (k : Int) : Int) : Rat) -
            ((monthNumOf (minYear exDecline) (2024, 1) : Int) : Rat)) *
          ((10 - 100) /
            (((monthNumOf (minYear exDecline) (2024, 2) : Int) : Rat) -
            ((monthNumOf (minYear exDecline) (2024, 1) : Int) : Rat))))) :=
  two_point_fit_exact exDecline (2024, 1) (2024, 2) 100 10 (by decide)
    exDecline_monthlyTotals

/-! The MonthNum time index of the forecast preparation. -/

theorem map_years_monthlyTotals (l : List Transaction) :
    (monthlyTotals l).map (fun p => p.1.1) = (monthKeys l).map Prod.fst := by
  unfold monthlyTotals
  rw [List.map_map]
  rfl

/-- C2 counterexample: on a history whose earliest (and only) month is
March 2024, the MonthNum assignment gives that month the index 3, not the
index 1 the claim promises for the earliest month present. -/
theorem monthIndex_not_one_cex :
    monthKeys exMarch = [(2024, 3)] ∧
    monthNumOf (minYear exMarch) (2024, 3) = 3 ∧
    monthNumOf (minYear exMarch) (2024, 3) ≠ 1 := by
  have hy : minYear exMarch = 2024 := by
    unfold minYear
    rw [map_years_monthlyTotals,
      show monthKeys exMarch = [(2024, 3)] from by decide]
    decide
  refine ⟨by decide, ?_, ?_⟩ <;> rw [hy] <;> decide

/-- Reflexivity of the ascending key order. -/
theorem keyLe_refl (k : Int × Nat) : keyLe k k := Or.inr ⟨rfl, le_refl _⟩

/-- C2 amended: each distinct (year, month) of the history is assigned
the index (year - minYear) * 12 + month; differences of indices equal
true calendar month distances, so calendar gaps between observed months
remain gaps in the index; and the earliest month present receives an
index equal to its calendar month number within the earliest year (so it
is 1 exactly when the history starts in a January). -/
theorem monthIndex_assignment (l : List Transaction) (hne : l ≠ []) :
    (∀ k ∈ monthKeys l,
      monthNumOf (minYear l) k = (k.1 - minYear l) * 12 + (k.2 : Int)) ∧
    (∀ k1 k2 : Int × Nat, k1 ∈ monthKeys l → k2 ∈ monthKeys l →
      monthNumOf (minYear l) k2 - monthNumOf (minYear l) k1 =
        12 * (k2.1 - k1.1) + ((k2.2 : Int) - (k1.2 : Int))) ∧
    (∃ k0 ∈ monthKeys l, (∀ k ∈ monthKeys l, keyLe k0 k) ∧
      monthNumOf (minYear l) k0 = (k0.2 : Int)) := by
  refine ⟨fun k _ => rfl, ?_, ?_⟩
  · intro k1 k2 _ _
    unfold monthNumOf
    ring
  · have hne2 : monthKeys l ≠ [] := by
      intro h0
      apply hne
      have hd : (l.map monthKey).dedup = [] := by
        have hlen := (List.perm_insertionSort keyLe
          (l.map monthKey).dedup).length_eq
        rw [show List.insertionSort keyLe (l.map monthKey).dedup =
          monthKeys l from rfl, h0] at hlen
        exact List.eq_nil_of_length_eq_zero hlen.symm
      have hm : l.map monthKey = [] := (List.dedup_eq_nil _).mp hd
      exact List.map_eq_nil_iff.mp hm
    obtain ⟨k0, rest, hk0⟩ : ∃ k0 rest, monthKeys l = k0 :: rest := by
      cases hmk : monthKeys l with
      | nil => exact absurd hmk hne2
      | cons a as => exact ⟨a, as, rfl⟩
    have hsorted : (monthKeys l).Sorted keyLe :=
      List.sorted_insertionSort keyLe _
    have hmin : ∀ k ∈ monthKeys l, keyLe k0 k := by
      intro k hk
      rw [hk0] at hk hsorted
      rcases List.mem_cons.mp hk with h | h
      · rw [h]
        exact keyLe_refl k0
      · exact List.rel_of_sorted_cons hsorted k h
    have hy0 : minYear l = k0.1 := by
      have hys : (monthlyTotals l).map (fun p => p.1.1) =
          (monthKeys l).map Prod.fst := map_years_monthlyTotals l
      obtain ⟨m, hm⟩ : ∃ m, ((monthKeys l).map Prod.fst).min? = some m := by
        cases hq : ((monthKeys l).map Prod.fst).min? with
        | none =>
          rw [List.min?_eq_none_iff] at hq
          rw [hk0] at hq
          exact absurd hq (by simp)
        | some m => exact ⟨m, rfl⟩
      have hiff := (@List.min?_eq_some_iff Int m _ _
        ⟨fun h1 h2 => le_antisymm h1 h2⟩ (fun a => le_refl a)
        (fun a b => min_choice a b)
        (fun a b c => le_min_iff) _).mp hm
      have hm0 : m ≤ k0.1 := hiff.2 k0.1
        (List.mem_map_of_mem Prod.fst (by rw [hk0]; exact List.mem_cons_self _ _))
      have h0m : k0.1 ≤ m := by
        obtain ⟨k, hkmem, hkm⟩ := List.mem_map.mp hiff.1
        rw [← hkm]
        rcases hmin k hkmem with h | h
        · exact le_of_lt h
        · exact le_of_eq h.1
      have : minYear l = m := by
        unfold minYear
        rw [hys, hm]
        rfl
      omega
    refine ⟨k0, by rw [hk0]; exact List.mem_cons_self _ _, hmin, ?_⟩
    unfold monthNumOf
    rw [hy0]
    ring

/-- Witness: the index assignment on the concrete two-month history. -/
theorem monthIndex_assignment_witness :
    (∀ k ∈ monthKeys exFlat,
      monthNumOf (minYear exFlat) k =
        (k.1 - minYear exFlat) * 12 + (k.2 : Int)) ∧
    (∀ k1 k2 : Int × Nat, k1 ∈ monthKeys exFlat → k2 ∈ monthKeys exFlat →
      monthNumOf (minYear exFlat) k2 - monthNumOf (minYear exFlat) k1 =
        12 * (k2.1 - k1.1) + ((k2.2 : Int) - (k1.2 : Int))) ∧
    (∃ k0 ∈ monthKeys exFlat, (∀ k ∈ monthKeys exFlat, keyLe k0 k) ∧
      monthNumOf (minYear exFlat) k0 = (k0.2 : Int)) :=
  monthIndex_assignment exFlat (by decide)

end SpendWise
